import Mathlib

/-!
Verification development for the numerology bot (`src/bot.py`).

The Python source is shallowly embedded below:
* `digit_sum` / `digitSum`  — `digit_sum(n)` sums the decimal digits of `abs(n)`;
* `reduce_number`           — master-aware reduction (`MASTER_SET = {11, 22, 33}`);
* `life_path_for_date`      — the Reducer producing primary / digits-total / secondary;
* `build_url_for_date`, `post_for_date` message construction;
* the `!calc` command's `strptime(mmddyyyy, "%m/%d/%Y")` parsing;
* `post_for_today` / `cmd_today` dispatch with channel-resolution failure.
-/

namespace NumerologyBot

/-- Structural worker for the digit sum: the first argument is recursion fuel
(any bound on the digit count suffices; `digitSum` passes `n` itself). -/
def digitSumAux : Nat → Nat → Nat
  | 0, _ => 0
  | fuel + 1, n => if n = 0 then 0 else n % 10 + digitSumAux fuel (n / 10)

/-- Decimal digit sum of a natural number.  Embeds the Python
`sum(int(c) for c in str(n))` for non-negative `n` (`str(0) = "0"` sums to 0):
each decimal digit of `n` is extracted once and added. -/
def digitSum (n : Nat) : Nat := digitSumAux n n

/-- Embeds `digit_sum(n: int)` from `src/bot.py`: digit sum of `abs(n)`. -/
def digit_sum (n : Int) : Nat := digitSum n.natAbs

/-- The fuel argument of `digitSumAux` is irrelevant once it bounds `n`. -/
def digitSumAux_fuel (n : Nat) : ∀ f g, n ≤ f → n ≤ g →
    digitSumAux f n = digitSumAux g n := by
  induction n using Nat.strong_induction_on with
  | _ n ih =>
    intro f g hf hg
    match f, g with
    | 0, 0 => rfl
    | 0, g + 1 =>
      have : n = 0 := Nat.le_zero.mp hf
      subst this; rfl
    | f + 1, 0 =>
      have : n = 0 := Nat.le_zero.mp hg
      subst this; rfl
    | f + 1, g + 1 =>
      by_cases h0 : n = 0
      · subst h0; rfl
      · have hdiv : n / 10 < n := Nat.div_lt_self (Nat.pos_of_ne_zero h0) (by decide)
        have hrec := ih (n / 10) hdiv f g (by omega) (by omega)
        simp [digitSumAux, h0, hrec]

/-- Unfolding equation for `digitSum`, mirroring the per-digit recursion. -/
def digitSum_eq (n : Nat) : digitSum n = if n = 0 then 0 else n % 10 + digitSum (n / 10) := by
  by_cases h0 : n = 0
  · subst h0; rfl
  · obtain ⟨m, rfl⟩ : ∃ m, n = m + 1 := ⟨n - 1, by omega⟩
    show digitSumAux (m + 1) (m + 1) = _
    have hdiv : (m + 1) / 10 < m + 1 := Nat.div_lt_self (by omega) (by decide)
    simp only [digitSumAux, h0, if_false]
    rw [digitSumAux_fuel ((m + 1) / 10) m ((m + 1) / 10) (by omega) (Nat.le_refl _)]
    rfl

/-- Valid for every `n`, including `0`. -/
def digitSum_mod_div (n : Nat) : n % 10 + digitSum (n / 10) = digitSum n := by
  rw [digitSum_eq n]
  by_cases h : n = 0
  · subst h
    show 0 % 10 + digitSum 0 = 0
    rfl
  · simp [h]

/-- On single digits the digit sum is the identity. -/
def digitSum_of_lt_ten (n : Nat) (h : n < 10) : digitSum n = n := by
  rw [digitSum_eq n]
  by_cases h0 : n = 0
  · simp [h0]
  · have hz : digitSum 0 = 0 := rfl
    simp [h0, Nat.mod_eq_of_lt h, Nat.div_eq_of_lt h, hz]

/-- The digit sum never exceeds its argument. -/
def digitSum_le (n : Nat) : digitSum n ≤ n := by
  induction n using Nat.strong_induction_on with
  | _ n ih =>
    by_cases h0 : n = 0
    · subst h0
      show digitSum 0 ≤ 0
      exact Nat.le_refl _
    · rw [digitSum_eq n]; simp only [h0, if_false]
      have hdiv : n / 10 < n := Nat.div_lt_self (Nat.pos_of_ne_zero h0) (by decide)
      have h1 : digitSum (n / 10) ≤ n / 10 := ih _ hdiv
      have h2 : n % 10 + n / 10 ≤ n := by omega
      omega

/-- Strict decrease of the digit sum above 9: the termination argument of the
`while s > 9` loop in `reduce_number`. -/
def digitSum_lt_self (n : Nat) (h : 9 < n) : digitSum n < n := by
  rw [digitSum_eq n]
  have h0 : ¬ n = 0 := by omega
  simp only [h0, if_false]
  have hdiv : digitSum (n / 10) ≤ n / 10 := digitSum_le (n / 10)
  have h1 : 1 ≤ n / 10 := by omega
  have h2 : 10 * (n / 10) + n % 10 = n := by omega
  omega

/-- Membership in `MASTER_SET = {11, 22, 33}` from `src/bot.py`. -/
def isMaster (s : Nat) : Bool := s == 11 || s == 22 || s == 33

/-- Structural worker for the reduction loop; the fuel is any bound on the
starting value (`digitSum` strictly decreases above 9, so `s` itself works). -/
def reduceLoopAux : Nat → Nat → Nat
  | 0, s => s
  | fuel + 1, s =>
    if 9 < s then
      if isMaster (digitSum s) then digitSum s
      else reduceLoopAux fuel (digitSum s)
    else s

/-- The `while s > 9` loop of `reduce_number`: repeatedly digit-sum, returning
immediately when a master number appears. -/
def reduceLoop (s : Nat) : Nat := reduceLoopAux s s

/-- The fuel argument of `reduceLoopAux` is irrelevant once it bounds `s`. -/
def reduceLoopAux_fuel (s : Nat) : ∀ f g, s ≤ f → s ≤ g →
    reduceLoopAux f s = reduceLoopAux g s := by
  induction s using Nat.strong_induction_on with
  | _ s ih =>
    intro f g hf hg
    match f, g with
    | 0, 0 => rfl
    | 0, g + 1 =>
      have h0 : s = 0 := Nat.le_zero.mp hf
      subst h0; rfl
    | f + 1, 0 =>
      have h0 : s = 0 := Nat.le_zero.mp hg
      subst h0; rfl
    | f + 1, g + 1 =>
      by_cases h9 : 9 < s
      · have hlt : digitSum s < s := digitSum_lt_self s h9
        have hrec := ih (digitSum s) hlt f g (by omega) (by omega)
        simp [reduceLoopAux, h9, hrec]
      · simp [reduceLoopAux, h9]

/-- Unfolding equation for `reduceLoop`, mirroring one iteration of the
`while s > 9` loop. -/
def reduceLoop_eq (s : Nat) : reduceLoop s =
    if 9 < s then
      (if isMaster (digitSum s) then digitSum s else reduceLoop (digitSum s))
    else s := by
  by_cases h9 : 9 < s
  · obtain ⟨m, rfl⟩ : ∃ m, s = m + 1 := ⟨s - 1, by omega⟩
    show reduceLoopAux (m + 1) (m + 1) = _
    have hlt : digitSum (m + 1) < m + 1 := digitSum_lt_self _ h9
    simp only [reduceLoopAux, h9, if_true]
    rw [reduceLoopAux_fuel (digitSum (m + 1)) m (digitSum (m + 1)) (by omega) (Nat.le_refl _)]
    rfl
  · match s, h9 with
    | 0, _ => rfl
    | s + 1, h9 =>
      show reduceLoopAux (s + 1) (s + 1) = _
      simp [reduceLoopAux, h9]

/-- Embeds `reduce_number(n: int)` from `src/bot.py`: one digit-sum pass, a
master check, then the master-checking reduction loop. -/
def reduce_number (n : Int) : Nat :=
  let s := digit_sum n
  if isMaster s then s else reduceLoop s

/-- A calendar date as produced by Python's `datetime.date`: components are the
`year`, `month`, `day` attributes. -/
structure Date where
  year : Nat
  month : Nat
  day : Nat
deriving DecidableEq, Repr

/-- Gregorian leap-year rule, as enforced by `datetime.date`. -/
def isLeap (y : Nat) : Bool := (y % 4 == 0 && y % 100 != 0) || y % 400 == 0

/-- Number of days in a month, as enforced by `datetime.date`. -/
def days_in_month (y m : Nat) : Nat :=
  if m = 2 then (if isLeap y then 29 else 28)
  else if m = 4 ∨ m = 6 ∨ m = 9 ∨ m = 11 then 30
  else 31

/-- Validity invariant of a `datetime.date` value: year in `[1, 9999]`, month in
`[1, 12]`, day within the month. -/
def validDate (dt : Date) : Prop :=
  1 ≤ dt.year ∧ dt.year ≤ 9999 ∧ 1 ≤ dt.month ∧ dt.month ≤ 12 ∧
    1 ≤ dt.day ∧ dt.day ≤ days_in_month dt.year dt.month

instance (dt : Date) : Decidable (validDate dt) := by
  unfold validDate; infer_instance

/-- The integer `int(f"{y:04d}{m:02d}{dd:02d}")` from `life_path_for_date`.
For the component ranges `datetime.date` guarantees (`y ≤ 9999`, `m ≤ 12`,
`dd ≤ 31`) the zero-padded f-string is exactly 8 characters, so reading it back
as an integer yields the place-value combination `y·10⁴ + m·10² + dd`. -/
def yyyymmdd (dt : Date) : Nat := dt.year * 10000 + dt.month * 100 + dt.day

/-- The dict returned by `life_path_for_date` in `src/bot.py`. -/
structure LifePathResult where
  life_path_primary : Nat
  digits_total : Nat
  secondary_energy : Nat
deriving DecidableEq, Repr

/-- Embeds `life_path_for_date(d: date)` from `src/bot.py`. -/
def life_path_for_date (dt : Date) : LifePathResult :=
  { life_path_primary := reduce_number ((dt.year + dt.month + dt.day : Nat) : Int)
    digits_total := digit_sum ((yyyymmdd dt : Nat) : Int)
    secondary_energy := reduce_number ((dt.day : Nat) : Int) }

/-- Zero-pad a natural number to (at least) two decimal digits, as Python's
`%m` / `%d` `strftime` directives and `f"{m:02d}"` do: below 100 (the whole
month/day range) exactly the two decimal digits are rendered. -/
def pad2 (n : Nat) : String :=
  if n < 100 then String.mk [Nat.digitChar (n / 10), Nat.digitChar (n % 10)]
  else toString n

/-- Structural worker producing the decimal digit characters of `n`, most
significant first, with no leading zeros (`[]` for 0); the first argument is
recursion fuel (`n` itself suffices). -/
def decDigitsAux : Nat → Nat → List Char
  | 0, _ => []
  | fuel + 1, n =>
    if n = 0 then [] else decDigitsAux fuel (n / 10) ++ [Nat.digitChar (n % 10)]

/-- Decimal digit characters of `n`, most significant first, no leading
zeros. -/
def decDigits (n : Nat) : List Char := decDigitsAux n n

/-- The `%Y` `strftime` directive.  Python delegates `%Y` to the platform's C
`strftime`; on glibc (the deployment platform of this bot) the year is
rendered as its plain decimal digits with **no** zero-padding, so years below
1000 produce fewer than four characters. -/
def strftime_Y (n : Nat) : String :=
  if n = 0 then "0" else String.mk (decDigits n)

/-- The full month name produced by `strftime('%B')` (months are 1–12 for any
`datetime.date`; other inputs are unreachable). -/
def monthName (m : Nat) : String :=
  match m with
  | 1 => "January" | 2 => "February" | 3 => "March" | 4 => "April"
  | 5 => "May" | 6 => "June" | 7 => "July" | 8 => "August"
  | 9 => "September" | 10 => "October" | 11 => "November" | 12 => "December"
  | _ => ""

/-- `d.strftime('%m/%d/%Y')` from `build_url_for_date`. -/
def strftime_mdY (dt : Date) : String :=
  pad2 dt.month ++ "/" ++ pad2 dt.day ++ "/" ++ strftime_Y dt.year

/-- `d.strftime('%B %d, %Y')` from `post_for_date`. -/
def strftime_BdY (dt : Date) : String :=
  monthName dt.month ++ " " ++ pad2 dt.day ++ ", " ++ strftime_Y dt.year

/-- Embeds `build_url_for_date(d)` from `src/bot.py`. -/
def build_url_for_date (dt : Date) : String :=
  "https://7catyear.com/?birthdate=" ++ strftime_mdY dt

/-- The `title` local of `post_for_date`. -/
def post_title (dt : Date) : String :=
  "Daily 7CatYear — " ++ strftime_BdY dt ++ " (PT)"

/-- The `msg` string assembled and sent by `post_for_date(d, channel)`. -/
def post_message (dt : Date) : String :=
  "**" ++ post_title dt ++ "**\n" ++
  "URL: " ++ build_url_for_date dt ++ "\n" ++
  "Life Path: **" ++ toString (life_path_for_date dt).life_path_primary ++ " / " ++
    toString (life_path_for_date dt).digits_total ++ "**\n" ++
  "Secondary energy: **" ++ toString (life_path_for_date dt).secondary_energy ++ "**"

/-! ### The `!calc` date parser

`datetime.strptime(mmddyyyy, "%m/%d/%Y")` compiles the format to the regex
`(?P<m>1[0-2]|0[1-9]|[1-9])/(?P<d>3[01]|[12]\d|0[1-9]|[1-9])/(?P<Y>\d\d\d\d)`,
matches it against the whole input (anchored at the start, with a trailing
"unconverted data remains" check), backtracking across the alternations, and
then lets the `datetime` constructor validate the day against the month and the
year against `MINYEAR = 1`.  The pattern is compiled without `re.ASCII`, so
each `\d` matches any Unicode `Nd` digit, while the literal classes
(`1[0-2]`, `[1-9]`, …) are ASCII code-point ranges.  The embedding enumerates
each alternation's matches in regex order and keeps the first full parse. -/

/-- Decimal value of a digit character. -/
def charVal (c : Char) : Nat := c.toNat - 48

/-- Start code points of the Unicode 15.0 `Nd` (decimal digit) ranges: every
`Nd` character lies in a run of ten consecutive code points with values 0–9
beginning at one of these.  CPython compiles `%m/%d/%Y` with plain `re`
(no `re.ASCII`), so each `\d` in the compiled pattern matches exactly this
category, and `int()` converts every such digit by its value. -/
def ndDigitStarts : List Nat :=
  [0x30, 0x660, 0x6F0, 0x7C0, 0x966, 0x9E6, 0xA66, 0xAE6, 0xB66, 0xBE6,
   0xC66, 0xCE6, 0xD66, 0xDE6, 0xE50, 0xED0, 0xF20, 0x1040, 0x1090, 0x17E0,
   0x1810, 0x1946, 0x19D0, 0x1A80, 0x1A90, 0x1B50, 0x1BB0, 0x1C40, 0x1C50,
   0xA620, 0xA8D0, 0xA900, 0xA9D0, 0xA9F0, 0xAA50, 0xABF0, 0xFF10,
   0x104A0, 0x10D30, 0x11066, 0x110F0, 0x11136, 0x111D0, 0x112F0, 0x11450,
   0x114D0, 0x11650, 0x116C0, 0x11730, 0x118E0, 0x11950, 0x11C50, 0x11D50,
   0x11DA0, 0x11F50, 0x16A60, 0x16AC0, 0x16B50,
   0x1D7CE, 0x1D7D8, 0x1D7E2, 0x1D7EC, 0x1D7F6,
   0x1E140, 0x1E2F0, 0x1E4F0, 0x1E950, 0x1FBF0]

/-- The decimal value of a Unicode `Nd` digit (what the regex `\d` matches and
`int()` converts), or `none` for every other character. -/
def ndDigitVal? (c : Char) : Option Nat :=
  ndDigitStarts.findSome? fun s =>
    if s ≤ c.toNat ∧ c.toNat ≤ s + 9 then some (c.toNat - s) else none

/-- Matches of the `%m` regex `1[0-2]|0[1-9]|[1-9]` against a prefix of the
input, in alternation order, each with the remaining input. -/
def monthMatches (cs : List Char) : List (Nat × List Char) :=
  (match cs with
   | '1' :: c :: rest =>
     if '0' ≤ c ∧ c ≤ '2' then [(10 + charVal c, rest)] else []
   | _ => []) ++
  (match cs with
   | '0' :: c :: rest =>
     if '1' ≤ c ∧ c ≤ '9' then [(charVal c, rest)] else []
   | _ => []) ++
  (match cs with
   | c :: rest =>
     if '1' ≤ c ∧ c ≤ '9' then [(charVal c, rest)] else []
   | _ => [])

/-- Matches of the `%d` regex `3[01]|[12]\d|0[1-9]|[1-9]`, in alternation
order; the `\d` in `[12]\d` matches any Unicode `Nd` digit (the literal
classes are ASCII code-point ranges). -/
def dayMatches (cs : List Char) : List (Nat × List Char) :=
  (match cs with
   | '3' :: c :: rest =>
     if c = '0' ∨ c = '1' then [(30 + charVal c, rest)] else []
   | _ => []) ++
  (match cs with
   | c1 :: c2 :: rest =>
     if c1 = '1' ∨ c1 = '2' then
       match ndDigitVal? c2 with
       | some v => [(10 * charVal c1 + v, rest)]
       | none => []
     else []
   | _ => []) ++
  (match cs with
   | '0' :: c :: rest =>
     if '1' ≤ c ∧ c ≤ '9' then [(charVal c, rest)] else []
   | _ => []) ++
  (match cs with
   | c :: rest =>
     if '1' ≤ c ∧ c ≤ '9' then [(charVal c, rest)] else []
   | _ => [])

/-- Matches of the `%Y` regex `\d\d\d\d`: exactly four digit characters, each
`\d` matching any Unicode `Nd` digit. -/
def yearMatches (cs : List Char) : List (Nat × List Char) :=
  match cs with
  | a :: b :: c :: d :: rest =>
    match ndDigitVal? a, ndDigitVal? b, ndDigitVal? c, ndDigitVal? d with
    | some va, some vb, some vc, some vd =>
      [(1000 * va + 100 * vb + 10 * vc + vd, rest)]
    | _, _, _, _ => []
  | _ => []

/-- All full matches `(month, day, year)` of the compiled `%m/%d/%Y` pattern
against the entire input, in regex backtracking order. -/
def mdYMatches (cs : List Char) : List (Nat × Nat × Nat) :=
  (monthMatches cs).flatMap fun p =>
    match p.2 with
    | '/' :: r2 =>
      (dayMatches r2).flatMap fun q =>
        match q.2 with
        | '/' :: r4 =>
          (yearMatches r4).flatMap fun w =>
            if w.2 = [] then [(p.1, q.1, w.1)] else []
        | _ => []
    | _ => []

/-- Embeds `datetime.strptime(s, "%m/%d/%Y").date()` wrapped in the
`try/except ValueError` of `cmd_calc`: `none` is the `ValueError` path (no
regex match, or a day/year rejected by the `datetime` constructor). -/
def parse_calc_date (s : String) : Option Date :=
  match (mdYMatches s.toList).head? with
  | some (m, d, y) =>
    if 1 ≤ y ∧ d ≤ days_in_month y m then some ⟨y, m, d⟩ else none
  | none => none

/-! ### Dispatch model

The observable actions of one command invocation or one scheduled fire, in
order: `typing` is `ctx.trigger_typing()`, `send` is `channel.send(...)` on a
resolved channel, `replyCtx` is `ctx.send(...)` back to the requesting caller,
and `logError` is `logging.error(...)`.  Channel resolution
(`bot.get_channel(TARGET_CHANNEL_ID)`) is modelled by an `Option Nat`
argument: the external lookup's result at dispatch time. -/

inductive Event where
  | typing : Event
  | send : Nat → String → Event
  | replyCtx : String → Event
  | logError : String → Event
deriving DecidableEq, Repr

/-- The usage-correction reply of `cmd_calc`'s `except ValueError` branch. -/
def usage_message : String := "Use MM/DD/YYYY, e.g. `!calc 08/21/2025`"

/-- The confirmation reply sent by `cmd_today`. -/
def today_confirmation : String := "Posted today's Life Path above ☝️"

/-- Embeds `cmd_calc(ctx, mmddyyyy)`: parse, on failure reply with the usage
message and return; on success trigger typing and run
`post_for_date(d, ctx.channel)`. -/
def cmd_calc (ctxChannelId : Nat) (input : String) : List Event :=
  match parse_calc_date input with
  | none => [Event.replyCtx usage_message]
  | some dt => [Event.typing, Event.send ctxChannelId (post_message dt)]

/-- Embeds `post_for_today()`: `today` is the date sampled at fire time and
`channel` the result of `bot.get_channel(TARGET_CHANNEL_ID)`; an unresolved
channel logs an error and returns without sending. -/
def post_for_today (targetChannelId : Nat) (today : Date)
    (channel : Option Nat) : List Event :=
  match channel with
  | none =>
    [Event.logError ("Channel " ++ toString targetChannelId ++
      " not found. Set TARGET_CHANNEL_ID correctly.")]
  | some ch => [Event.send ch (post_message today)]

/-- Embeds `cmd_today(ctx)`: trigger typing, run `post_for_today()`, then
confirm to the caller. -/
def cmd_today (targetChannelId : Nat) (today : Date)
    (channel : Option Nat) : List Event :=
  Event.typing :: post_for_today targetChannelId today channel ++
    [Event.replyCtx today_confirmation]

/-- A sequence of independent scheduled or on-demand occurrences of
`post_for_today`, each with its own sampled date and its own channel-resolution
result; their observable actions in order. -/
def run_occurrences (targetChannelId : Nat)
    (occs : List (Date × Option Nat)) : List Event :=
  occs.flatMap fun o => post_for_today targetChannelId o.1 o.2

/-! ### Spec-side definitions -/

/-- Modelled from the spec: the stopping condition of the reduction sequence —
a value that "is either a member of \x7b11, 22, 33\x7d or at most 9". -/
def stops (s : Nat) : Prop := isMaster s = true ∨ s ≤ 9

instance (s : Nat) : Decidable (stops s) := by
  unfold stops; infer_instance

/-- Modelled from the spec: the `w` least-significant decimal digits of `n`,
zero-padded, most-significant first. -/
def padDigits (w n : Nat) : List Nat :=
  match w with
  | 0 => []
  | w + 1 => padDigits w (n / 10) ++ [n % 10]

/-- Modelled from the spec: "the eight decimal digits of the zero-padded
YYYYMMDD representation of the date". -/
def eightDigits (dt : Date) : List Nat :=
  padDigits 4 dt.year ++ padDigits 2 dt.month ++ padDigits 2 dt.day

/-! ### Helper lemmas -/

theorem digit_sum_natCast (n : Nat) : digit_sum (n : Int) = digitSum n := by
  simp [digit_sum]

theorem reduce_number_eq (n : Int) : reduce_number n =
    if isMaster (digit_sum n) then digit_sum n else reduceLoop (digit_sum n) := rfl

/-- Digit sums split across non-overlapping decimal positions. -/
theorem digitSum_mul_pow_add (k : Nat) :
    ∀ a b : Nat, b < 10 ^ k → digitSum (a * 10 ^ k + b) = digitSum a + digitSum b := by
  induction k with
  | zero =>
    intro a b hb
    have hb0 : b = 0 := by omega
    subst hb0
    have hz : digitSum 0 = 0 := rfl
    simp [hz]
  | succ k ih =>
    intro a b hb
    by_cases hN : a * 10 ^ (k + 1) + b = 0
    · have hpow : 0 < 10 ^ (k + 1) := Nat.pos_pow_of_pos _ (by decide)
      have hmul : a * 10 ^ (k + 1) = 0 := by omega
      have ha : a = 0 := by
        rcases Nat.mul_eq_zero.mp hmul with h | h
        · exact h
        · omega
      have hb0 : b = 0 := by omega
      subst ha; subst hb0
      have hz : digitSum 0 = 0 := rfl
      simp [hz]
    · rw [digitSum_eq (a * 10 ^ (k + 1) + b)]
      simp only [hN, if_false]
      have hrw : a * 10 ^ (k + 1) + b = 10 * (a * 10 ^ k) + b := by ring
      have hmod : (a * 10 ^ (k + 1) + b) % 10 = b % 10 := by
        rw [hrw]; exact Nat.mul_add_mod 10 (a * 10 ^ k) b
      have hdiv : (a * 10 ^ (k + 1) + b) / 10 = a * 10 ^ k + b / 10 := by
        rw [hrw]; exact Nat.mul_add_div (by decide) (a * 10 ^ k) b
      have hblt : b / 10 < 10 ^ k := by
        have h10 : b < 10 * 10 ^ k := by
          have hp : (10 : Nat) ^ (k + 1) = 10 * 10 ^ k := by ring
          omega
        exact Nat.div_lt_of_lt_mul h10
      rw [hmod, hdiv, ih a (b / 10) hblt]
      have hb2 : b % 10 + digitSum (b / 10) = digitSum b := digitSum_mod_div b
      omega

theorem padDigits_length (w : Nat) : ∀ n, (padDigits w n).length = w := by
  induction w with
  | zero => intro n; rfl
  | succ w ih => intro n; simp [padDigits, ih]

theorem padDigits_sum (w : Nat) : ∀ n, n < 10 ^ w → (padDigits w n).sum = digitSum n := by
  induction w with
  | zero =>
    intro n hn
    have h0 : n = 0 := by omega
    subst h0; rfl
  | succ w ih =>
    intro n hn
    have hdivlt : n / 10 < 10 ^ w := by
      have h10 : n < 10 * 10 ^ w := by
        have hp : (10 : Nat) ^ (w + 1) = 10 * 10 ^ w := by ring
        omega
      exact Nat.div_lt_of_lt_mul h10
    have hsum := digitSum_mod_div n
    simp [padDigits, ih (n / 10) hdivlt]
    omega

/-- The reduction loop, entered on a non-master value, returns the first
iterated digit sum that is a master number or at most 9. -/
theorem reduceLoop_first_stop (s : Nat) (hm : isMaster s = false) :
    ∃ k, reduceLoop s = digitSum^[k] s ∧ stops (digitSum^[k] s) ∧
      ∀ j, j < k → ¬ stops (digitSum^[j] s) := by
  induction s using Nat.strong_induction_on with
  | _ s ih =>
    rw [reduceLoop_eq s]
    by_cases h9 : 9 < s
    · simp only [h9, if_true]
      have hns : ¬ stops s := by
        intro hstop
        rcases hstop with h | h
        · rw [hm] at h
          exact Bool.false_ne_true h
        · omega
      by_cases hmt : isMaster (digitSum s) = true
      · refine ⟨1, ?_, ?_, ?_⟩
        · simp [hmt]
        · simp only [Function.iterate_one]
          exact Or.inl hmt
        · intro j hj
          have hj0 : j = 0 := by omega
          subst hj0
          simp only [Function.iterate_zero, id_eq]
          exact hns
      · have hmt' : isMaster (digitSum s) = false := by
          simpa using hmt
        have hlt : digitSum s < s := digitSum_lt_self s h9
        obtain ⟨k, hk1, hk2, hk3⟩ := ih (digitSum s) hlt hmt'
        refine ⟨k + 1, ?_, ?_, ?_⟩
        · simp only [hmt, if_false]
          rw [Function.iterate_succ_apply]
          exact hk1
        · rw [Function.iterate_succ_apply]
          exact hk2
        · intro j hj
          match j with
          | 0 =>
            simp only [Function.iterate_zero, id_eq]
            exact hns
          | j + 1 =>
            rw [Function.iterate_succ_apply]
            exact hk3 j (by omega)
    · simp only [h9, if_false]
      refine ⟨0, by simp, ?_, ?_⟩
      · simp only [Function.iterate_zero, id_eq]
        exact Or.inr (by omega)
      · intro j hj
        omega

/-- `reduce_number` on a non-negative input returns the first element of the
sequence `s₀ = digitSum n`, `sᵢ₊₁ = digitSum sᵢ` satisfying `stops`. -/
theorem reduce_number_first_stop (n : Nat) :
    ∃ k, reduce_number (n : Int) = digitSum^[k + 1] n ∧ stops (digitSum^[k + 1] n) ∧
      ∀ j, j < k → ¬ stops (digitSum^[j + 1] n) := by
  have hds : digit_sum (n : Int) = digitSum n := digit_sum_natCast n
  by_cases hm : isMaster (digitSum n) = true
  · refine ⟨0, ?_, ?_, ?_⟩
    · rw [reduce_number_eq, hds]
      simp [hm]
    · show stops (digitSum^[1] n)
      rw [Function.iterate_one]
      exact Or.inl hm
    · intro j hj; omega
  · have hm' : isMaster (digitSum n) = false := by simpa using hm
    have hru : reduce_number (n : Int) = reduceLoop (digitSum n) := by
      rw [reduce_number_eq, hds]
      simp [hm]
    obtain ⟨k, hk1, hk2, hk3⟩ := reduceLoop_first_stop (digitSum n) hm'
    refine ⟨k, ?_, ?_, ?_⟩
    · rw [hru, Function.iterate_succ_apply]
      exact hk1
    · rw [Function.iterate_succ_apply]
      exact hk2
    · intro j hj
      rw [Function.iterate_succ_apply]
      exact hk3 j hj

/-- Zero-padded two-character rendering for all two-digit inputs. -/
theorem pad2_length (n : Nat) (h : n < 100) : (pad2 n).length = 2 := by
  simp [pad2, h, String.length]

/-- The fuel argument of `decDigitsAux` is irrelevant once it bounds `n`. -/
theorem decDigitsAux_fuel (n : Nat) : ∀ f g, n ≤ f → n ≤ g →
    decDigitsAux f n = decDigitsAux g n := by
  induction n using Nat.strong_induction_on with
  | _ n ih =>
    intro f g hf hg
    match f, g with
    | 0, 0 => rfl
    | 0, g + 1 =>
      have h0 : n = 0 := Nat.le_zero.mp hf
      subst h0; rfl
    | f + 1, 0 =>
      have h0 : n = 0 := Nat.le_zero.mp hg
      subst h0; rfl
    | f + 1, g + 1 =>
      by_cases h0 : n = 0
      · subst h0; rfl
      · have hdiv : n / 10 < n := Nat.div_lt_self (Nat.pos_of_ne_zero h0) (by decide)
        have hrec := ih (n / 10) hdiv f g (by omega) (by omega)
        simp [decDigitsAux, h0, hrec]

/-- Unfolding equation for `decDigits`. -/
theorem decDigits_eq (n : Nat) : decDigits n =
    if n = 0 then [] else decDigits (n / 10) ++ [Nat.digitChar (n % 10)] := by
  by_cases h0 : n = 0
  · subst h0; rfl
  · obtain ⟨m, rfl⟩ : ∃ m, n = m + 1 := ⟨n - 1, by omega⟩
    show decDigitsAux (m + 1) (m + 1) = _
    simp only [decDigitsAux, h0, if_false]
    rw [decDigitsAux_fuel ((m + 1) / 10) m ((m + 1) / 10) (by omega) (Nat.le_refl _)]
    rfl

/-- Each nonzero number has one more decimal digit than its quotient by 10. -/
theorem decDigits_length_step (n : Nat) (h : n ≠ 0) :
    (decDigits n).length = (decDigits (n / 10)).length + 1 := by
  rw [decDigits_eq n]
  simp [h]

/-- `%Y` renders exactly four characters on the four-digit year range. -/
theorem strftime_Y_length_four (n : Nat) (h1 : 1000 ≤ n) (h2 : n ≤ 9999) :
    (strftime_Y n).length = 4 := by
  have e1 : (decDigits n).length = (decDigits (n / 10)).length + 1 :=
    decDigits_length_step n (by omega)
  have e2 : (decDigits (n / 10)).length = (decDigits (n / 10 / 10)).length + 1 :=
    decDigits_length_step (n / 10) (by omega)
  have e3 : (decDigits (n / 10 / 10)).length = (decDigits (n / 10 / 10 / 10)).length + 1 :=
    decDigits_length_step (n / 10 / 10) (by omega)
  have e4 : (decDigits (n / 10 / 10 / 10)).length =
      (decDigits (n / 10 / 10 / 10 / 10)).length + 1 :=
    decDigits_length_step (n / 10 / 10 / 10) (by omega)
  have e5 : n / 10 / 10 / 10 / 10 = 0 := by omega
  have hz : (decDigits 0).length = 0 := rfl
  rw [e5, hz] at e4
  have hn0 : ¬ n = 0 := by omega
  simp only [strftime_Y, hn0, if_false]
  show (decDigits n).length = 4
  omega

/-- Every month length is at most 31. -/
theorem days_in_month_le_31 (y m : Nat) : days_in_month y m ≤ 31 := by
  unfold days_in_month
  split
  · split <;> omega
  · split <;> omega

/-! ### Claims -/

/-- C1: for every non-negative integer `n`, `reduce_number n` equals the first
value of the sequence `s₀ = digitSum n`, `sᵢ₊₁ = digitSum sᵢ` that is a master
number (11, 22, 33) or at most 9: the master check runs after every digit-sum
pass, including the first, and a master value is returned immediately. -/
theorem C1_reduce_number_returns_first_stopping_value (n : Nat) :
    ∃ k, reduce_number (n : Int) = digitSum^[k + 1] n ∧ stops (digitSum^[k + 1] n) ∧
      ∀ j, j < k → ¬ stops (digitSum^[j + 1] n) :=
  reduce_number_first_stop n

/-- C2: for every valid date, `primary` is the master-aware reduction of
`year + month + day` and `secondaryEnergy` the master-aware reduction of the
day alone, so any two valid dates sharing a day-of-month share their
`secondaryEnergy`. -/
theorem C2_primary_and_secondary_formulas (dt dt' : Date)
    (h : validDate dt) (h' : validDate dt') :
    (life_path_for_date dt).life_path_primary =
      reduce_number ((dt.year : Int) + (dt.month : Int) + (dt.day : Int)) ∧
    (life_path_for_date dt).secondary_energy = reduce_number ((dt.day : Int)) ∧
    (dt.day = dt'.day →
      (life_path_for_date dt).secondary_energy =
        (life_path_for_date dt').secondary_energy) := by
  refine ⟨?_, rfl, ?_⟩
  · show reduce_number ((dt.year + dt.month + dt.day : Nat) : Int) = _
    congr 1
    try push_cast
    try ring
  · intro hdd
    show reduce_number ((dt.day : Nat) : Int) = reduce_number ((dt'.day : Nat) : Int)
    rw [hdd]

/-- Witness for C2 at the valid dates 2025-08-21 and 1999-12-21, which share
the day-of-month 21. -/
theorem C2_witness :
    validDate ⟨2025, 8, 21⟩ ∧ validDate ⟨1999, 12, 21⟩ ∧
    (life_path_for_date ⟨2025, 8, 21⟩).secondary_energy =
      (life_path_for_date ⟨1999, 12, 21⟩).secondary_energy :=
  ⟨by decide, by decide,
    (C2_primary_and_secondary_formulas ⟨2025, 8, 21⟩ ⟨1999, 12, 21⟩
      (by decide) (by decide)).2.2 rfl⟩

/-- C3: for every valid date, `digitTotal` is the raw sum of the eight decimal
digits of the zero-padded YYYYMMDD rendering — equivalently
`digitSum y + digitSum m + digitSum d` — and no master-aware reduction is
applied to it: the `int(f"...")` formulation is equivalent to the direct
per-component digit sum. -/
theorem C3_digit_total_is_eight_digit_sum (dt : Date) (h : validDate dt) :
    (eightDigits dt).length = 8 ∧
    (life_path_for_date dt).digits_total = (eightDigits dt).sum ∧
    (life_path_for_date dt).digits_total =
      digitSum dt.year + digitSum dt.month + digitSum dt.day := by
  obtain ⟨hy1, hy2, hm1, hm2, hd1, hd2⟩ := h
  have hd31 : dt.day ≤ 31 := le_trans hd2 (days_in_month_le_31 dt.year dt.month)
  have h4 : (10 : Nat) ^ 4 = 10000 := by norm_num
  have h2 : (10 : Nat) ^ 2 = 100 := by norm_num
  have hsplit : digitSum (yyyymmdd dt) =
      digitSum dt.year + digitSum dt.month + digitSum dt.day := by
    have e1 : yyyymmdd dt = dt.year * 10 ^ 4 + (dt.month * 10 ^ 2 + dt.day) := by
      unfold yyyymmdd
      rw [h4, h2]
      ring
    have hb1 : dt.month * 10 ^ 2 + dt.day < 10 ^ 4 := by rw [h4, h2]; omega
    have hb2 : dt.day < 10 ^ 2 := by rw [h2]; omega
    rw [e1, digitSum_mul_pow_add 4 dt.year (dt.month * 10 ^ 2 + dt.day) hb1,
      digitSum_mul_pow_add 2 dt.month dt.day hb2]
    omega
  have htot : (life_path_for_date dt).digits_total = digitSum (yyyymmdd dt) :=
    digit_sum_natCast (yyyymmdd dt)
  refine ⟨?_, ?_, ?_⟩
  · simp [eightDigits, padDigits_length]
  · have hsy : (padDigits 4 dt.year).sum = digitSum dt.year :=
      padDigits_sum 4 dt.year (by rw [h4]; omega)
    have hsm : (padDigits 2 dt.month).sum = digitSum dt.month :=
      padDigits_sum 2 dt.month (by rw [h2]; omega)
    have hsd : (padDigits 2 dt.day).sum = digitSum dt.day :=
      padDigits_sum 2 dt.day (by rw [h2]; omega)
    rw [htot, hsplit]
    simp only [eightDigits, List.sum_append, hsy, hsm, hsd]
    try omega
  · rw [htot, hsplit]

/-- Witness for C3 at the valid date 2025-08-21 (digit total 20). -/
theorem C3_witness :
    validDate ⟨2025, 8, 21⟩ ∧
    ((eightDigits ⟨2025, 8, 21⟩).length = 8 ∧
     (life_path_for_date ⟨2025, 8, 21⟩).digits_total = (eightDigits ⟨2025, 8, 21⟩).sum ∧
     (life_path_for_date ⟨2025, 8, 21⟩).digits_total =
       digitSum 2025 + digitSum 8 + digitSum 21) :=
  ⟨by decide, C3_digit_total_is_eight_digit_sum ⟨2025, 8, 21⟩ (by decide)⟩

/-- C4: a string that does not parse as an `MM/DD/YYYY` date (such as
`13/40/2025` or `2025-08-21`) makes `cmd_calc` reply with the usage-correction
message and return, with no Reducer invocation and nothing sent to the delivery
sink; a well-formed string goes through the shared Reducer → format → deliver
path. -/
theorem C4_calc_validation_gate :
    (∀ s : String, parse_calc_date s = none →
      ∀ ctxId : Nat, cmd_calc ctxId s = [Event.replyCtx usage_message]) ∧
    (∀ (s : String) (dt : Date), parse_calc_date s = some dt →
      ∀ ctxId : Nat, cmd_calc ctxId s =
        [Event.typing, Event.send ctxId (post_message dt)]) ∧
    parse_calc_date "13/40/2025" = none ∧
    parse_calc_date "2025-08-21" = none ∧
    parse_calc_date "08/21/2025" = some ⟨2025, 8, 21⟩ := by
  refine ⟨?_, ?_, by decide, by decide, by decide⟩
  · intro s hs ctxId
    simp [cmd_calc, hs]
  · intro s dt hs ctxId
    simp [cmd_calc, hs]

/-- Witness for C4 on the malformed input `2025-08-21`. -/
theorem C4_witness :
    parse_calc_date "2025-08-21" = none ∧
    cmd_calc 0 "2025-08-21" = [Event.replyCtx usage_message] :=
  ⟨by decide, C4_calc_validation_gate.1 "2025-08-21" (by decide) 0⟩

/-- C5: an unresolved delivery sink makes `post_for_today` log one error and
return without sending and without raising; a resolved sink sends the message;
and prefixing a failed occurrence to any sequence of occurrences leaves every
later occurrence's actions exactly as they would have been on their own. -/
theorem C5_unresolved_sink_abandons_single_occurrence (targetId : Nat) (dt : Date)
    (ch : Nat) (occs : List (Date × Option Nat)) :
    post_for_today targetId dt none =
      [Event.logError ("Channel " ++ toString targetId ++
        " not found. Set TARGET_CHANNEL_ID correctly.")] ∧
    post_for_today targetId dt (some ch) = [Event.send ch (post_message dt)] ∧
    run_occurrences targetId ((dt, none) :: occs) =
      Event.logError ("Channel " ++ toString targetId ++
        " not found. Set TARGET_CHANNEL_ID correctly.") ::
        run_occurrences targetId occs := by
  refine ⟨rfl, rfl, ?_⟩
  simp [run_occurrences, post_for_today]

/-- C6: the Reducer yields primary 11, digit total 20 and secondary energy 3
for 2025-08-21, and primary 1 for 1999-09-09. -/
theorem C6_concrete_examples :
    life_path_for_date ⟨2025, 8, 21⟩ =
      { life_path_primary := 11, digits_total := 20, secondary_energy := 3 } ∧
    (life_path_for_date ⟨1999, 9, 9⟩).life_path_primary = 1 := by
  decide

/-- C7: the Reducer is total — the reduction loop strictly decreases above 9
(`digitSum s < s` for `s > 9`), and every non-negative input reaches a stopping
value (a master number or a single digit) with no error path. -/
theorem C7_reducer_total :
    (∀ s : Nat, 9 < s → digit_sum (s : Int) < s) ∧
    (∀ n : Nat, stops (reduce_number (n : Int))) := by
  constructor
  · intro s hs
    rw [digit_sum_natCast]
    exact digitSum_lt_self s hs
  · intro n
    obtain ⟨k, hk1, hk2, _⟩ := reduce_number_first_stop n
    rw [hk1]
    exact hk2

/-- Witness for C7 at `s = 10`. -/
theorem C7_witness : 9 < 10 ∧ digit_sum ((10 : Nat) : Int) < 10 :=
  ⟨by decide, C7_reducer_total.1 10 (by decide)⟩

/-- C8: the Reducer is deterministic and idempotent — its result is a function
of the date components alone, so two invocations on the same valid date give
identical `ReductionResult`s (the embedding is pure, mirroring the Python
function's lack of mutable state). -/
theorem C8_reducer_deterministic (dt dt' : Date) (h : validDate dt)
    (hy : dt.year = dt'.year) (hm : dt.month = dt'.month) (hd : dt.day = dt'.day) :
    life_path_for_date dt = life_path_for_date dt' := by
  cases dt
  cases dt'
  simp only at hy hm hd
  subst hy
  subst hm
  subst hd
  rfl

/-- Witness for C8: two invocations at the valid date 2025-08-21 agree. -/
theorem C8_witness :
    validDate ⟨2025, 8, 21⟩ ∧
    life_path_for_date ⟨2025, 8, 21⟩ = life_path_for_date ⟨2025, 8, 21⟩ :=
  ⟨by decide, C8_reducer_deterministic ⟨2025, 8, 21⟩ ⟨2025, 8, 21⟩
    (by decide) rfl rfl rfl⟩

/-- C9 counterexample: the valid date 0042-01-01 — reachable through
`!calc 01/01/0042`, since the `%Y` regex demands four characters but the
`datetime` constructor accepts any year from 1 — renders its year as the two
characters `42` (platform `%Y` does not zero-pad), so the title's year is not
four digits and the URL is not of `MM/DD/YYYY` shape. -/
theorem C9_counterexample :
    validDate ⟨42, 1, 1⟩ ∧
    parse_calc_date "01/01/0042" = some ⟨42, 1, 1⟩ ∧
    strftime_Y ((⟨42, 1, 1⟩ : Date)).year = "42" ∧
    ¬ (strftime_Y ((⟨42, 1, 1⟩ : Date)).year).length = 4 ∧
    build_url_for_date ⟨42, 1, 1⟩ = "https://7catyear.com/?birthdate=01/01/42" := by
  decide

/-- C9 (amended): for every valid date the formatted message decomposes into a
title with the long month name, zero-padded day, the year as rendered by the
platform's `%Y` and a time-zone tag, the deterministic reference URL
`https://7catyear.com/?birthdate=MM/DD/<year>` built solely from the date with
zero-padded month and day, and the three labelled result fields, with primary
and digit total on one line and secondary energy on its own line; month and
day render as exactly two characters, and the year as exactly four characters
for years at least 1000 (below 1000 the platform renders it unpadded). -/
theorem C9_message_format (dt : Date) (h : validDate dt) :
    build_url_for_date dt = "https://7catyear.com/?birthdate=" ++ strftime_mdY dt ∧
    strftime_mdY dt = pad2 dt.month ++ "/" ++ pad2 dt.day ++ "/" ++ strftime_Y dt.year ∧
    post_title dt = "Daily 7CatYear — " ++
      (monthName dt.month ++ " " ++ pad2 dt.day ++ ", " ++ strftime_Y dt.year) ++ " (PT)" ∧
    post_message dt =
      "**" ++ post_title dt ++ "**\n" ++
      "URL: " ++ build_url_for_date dt ++ "\n" ++
      "Life Path: **" ++ toString (life_path_for_date dt).life_path_primary ++ " / " ++
        toString (life_path_for_date dt).digits_total ++ "**\n" ++
      "Secondary energy: **" ++ toString (life_path_for_date dt).secondary_energy ++ "**" ∧
    (pad2 dt.month).length = 2 ∧ (pad2 dt.day).length = 2 ∧
    (1000 ≤ dt.year → (strftime_Y dt.year).length = 4) ∧
    monthName dt.month ∈ (["January", "February", "March", "April", "May", "June",
      "July", "August", "September", "October", "November", "December"] : List String) := by
  obtain ⟨hy1, hy2, hm1, hm2, hd1, hd2⟩ := h
  have hd31 : dt.day ≤ 31 := le_trans hd2 (days_in_month_le_31 dt.year dt.month)
  refine ⟨rfl, rfl, rfl, rfl, ?_, ?_, ?_, ?_⟩
  · exact pad2_length dt.month (by omega)
  · exact pad2_length dt.day (by omega)
  · intro hy1000
    exact strftime_Y_length_four dt.year hy1000 (by omega)
  · rcases dt with ⟨y, m, d⟩
    simp only at hm1 hm2
    interval_cases m <;> simp [monthName]

/-- Witness for C9 at the valid date 2025-08-21, whose year is at least
1000. -/
theorem C9_witness :
    validDate ⟨2025, 8, 21⟩ ∧ 1000 ≤ (2025 : Nat) ∧
    build_url_for_date ⟨2025, 8, 21⟩ =
      "https://7catyear.com/?birthdate=" ++ strftime_mdY ⟨2025, 8, 21⟩ ∧
    (strftime_Y (2025 : Nat)).length = 4 :=
  ⟨by decide, by decide, (C9_message_format ⟨2025, 8, 21⟩ (by decide)).1,
    (C9_message_format ⟨2025, 8, 21⟩ (by decide)).2.2.2.2.2.2.1 (by decide)⟩

/-- C10: when the target channel cannot be resolved, the on-demand `!today`
command still replies to the requesting caller with the confirmation message,
although nothing was delivered to the sink. -/
theorem C10_today_confirms_despite_unresolved_sink (targetId : Nat) (dt : Date) :
    cmd_today targetId dt none =
      [Event.typing,
       Event.logError ("Channel " ++ toString targetId ++
         " not found. Set TARGET_CHANNEL_ID correctly."),
       Event.replyCtx "Posted today's Life Path above ☝️"] := rfl

end NumerologyBot
